import Mathlib

/-!
Verification development for the `cue` load-balancer control-plane library
(BGP speaker + health-check director).  Go sources are shallowly embedded:
byte slices become `List Nat` (entries are byte values), Go maps become
association lists with overwrite insertion (`aput`/`aget`), and Go map-keyed
sets become first-occurrence deduplicated lists (`goset`).
-/

set_option maxHeartbeats 1000000

/-- Byte strings (`[]byte`): lists of byte values. -/
abbrev Bytes := List Nat

/-- Model of `htons` from bgp4.go: big-endian bytes of a `uint16` value. -/
def htons (h : Nat) : Bytes := [(h / 256) % 256, h % 256]

/-- Model of `htonl` from bgp4.go: big-endian bytes of a `uint32` value. -/
def htonl (h : Nat) : Bytes :=
  [(h / 16777216) % 256, (h / 65536) % 256, (h / 256) % 256, h % 256]

/-- Model of `net/netip.Addr`: either a 4-byte IPv4 address or a 16-byte IPv6 address.
The byte payloads are carried as lists; well-formed values have length 4
resp. 16 (the Go arrays `[4]byte` / `[16]byte`). -/
inductive Addr where
  | v4 (bytes : Bytes)
  | v6 (bytes : Bytes)
deriving DecidableEq

/-- Model of `netip.Addr.Is4`. -/
def Addr.is4 : Addr → Bool
  | .v4 _ => true
  | .v6 _ => false

/-- Model of `netip.Addr.Is6`. -/
def Addr.is6 : Addr → Bool
  | .v4 _ => false
  | .v6 _ => true

/-- Model of `netip.Addr.As4` (only ever called on 4-byte addresses in the source). -/
def Addr.as4 : Addr → Bytes
  | .v4 b => b
  | .v6 _ => []

/-- Model of `netip.Addr.As16` (only ever called on 16-byte addresses in the source). -/
def Addr.as16 : Addr → Bytes
  | .v4 _ => []
  | .v6 b => b

section GoMaps

variable {α : Type} {β : Type} {γ : Type} [DecidableEq α]

/-- Go map assignment `m[k] = v`: replace the value of an existing key,
otherwise add the binding. -/
def aput : List (α × β) → α → β → List (α × β)
  | [], k, v => [(k, v)]
  | (k', v') :: t, k, v => if k' = k then (k', v) :: t else (k', v') :: aput t k v

/-- Go map lookup `m[k]`. -/
def aget : List (α × β) → α → Option β
  | [], _ => none
  | (k', v') :: t, k => if k' = k then some v' else aget t k

theorem aget_aput (m : List (α × β)) (k k' : α) (v : β) :
    aget (aput m k v) k' = if k' = k then some v else aget m k' := by
  induction m with
  | nil =>
    simp only [aput, aget]
    by_cases h : k = k'
    · rw [if_pos h, if_pos h.symm]
    · rw [if_neg h, if_neg fun he => h he.symm]
  | cons hd t ih =>
    obtain ⟨k₀, v₀⟩ := hd
    simp only [aput]
    by_cases h0 : k₀ = k
    · rw [if_pos h0]
      simp only [aget]
      by_cases h : k₀ = k'
      · rw [if_pos h, if_pos (h.symm.trans h0)]
      · rw [if_neg h, if_neg fun he => h (he.trans h0.symm).symm, if_neg h]
    · rw [if_neg h0]
      simp only [aget]
      by_cases h : k₀ = k'
      · rw [if_pos h, if_neg fun he : k' = k => h0 (h.trans he), if_pos h]
      · rw [if_neg h, if_neg h, ih]

/-- Go set built by `m[i] = true` over a list: first-occurrence dedup. -/
def goset : List α → List α
  | [] => []
  | i :: t => if i ∈ goset t then goset t else goset t ++ [i]

theorem mem_goset (a : α) (l : List α) : a ∈ goset l ↔ a ∈ l := by
  induction l with
  | nil => simp [goset]
  | cons i t ih =>
    by_cases h : i ∈ goset t
    · simp only [goset, if_pos h, List.mem_cons, ih]
      constructor
      · exact fun hm => Or.inr hm
      · rintro (rfl | hm)
        · exact ih.mp h
        · exact hm
    · simp only [goset, if_neg h, List.mem_append, List.mem_singleton, List.mem_cons, ih]
      tauto

theorem nodup_goset (l : List α) : (goset l).Nodup := by
  induction l with
  | nil => simp [goset]
  | cons i t ih =>
    by_cases h : i ∈ goset t
    · simpa [goset, if_pos h] using ih
    · simp only [goset, if_neg h]
      refine List.Nodup.append ih (List.nodup_singleton i) ?_
      intro x hx hxi
      rw [List.mem_singleton] at hxi
      subst hxi
      exact h hx

end GoMaps

/-! ## Monitor (src/mon/mon.go): probe loop with 5-sample hysteresis -/

/-- State of one probe loop: the 5-slot history window plus the `OK` and
`Initialised` fields of the instance's `Status` (time fields omitted). -/
structure ProbeState where
  history : List Bool
  ok : Bool
  initialised : Bool
deriving DecidableEq

/-- Probe-loop initialisation (src/mon/mon.go:256-259 and 294-298):
a new instance starts with `status.OK = Init`, and the history window is
all-`true` iff `status.OK` was set (the Go zero value `[5]bool` is all-`false`). -/
def monInit (init : Bool) : ProbeState :=
  { history := if init then List.replicate 5 true else List.replicate 5 false
    ok := init
    initialised := false }

/-- Number of passed probes in the window (src/mon/mon.go:333-338). -/
def passedCount (h : List Bool) : Nat := (h.filter id).length

/-- One probe tick (src/mon/mon.go:330-352): slide the window, count passes,
and apply the hysteresis rule (`passed < 4` from UP, `passed > 4` from DOWN). -/
def monTick (s : ProbeState) (r : Bool) : ProbeState :=
  let history := s.history.drop 1 ++ [r]
  let passed := passedCount history
  let ok := if s.ok then (if passed < 4 then false else s.ok)
            else (if passed > 4 then true else s.ok)
  { history := history, ok := ok, initialised := true }

/-- The probe loop run over a list of probe results. -/
def monRun (init : Bool) (rs : List Bool) : ProbeState :=
  rs.foldl monTick (monInit init)

/-- The last `n` elements of a list. -/
def lastN (n : Nat) (l : List Bool) : List Bool := l.drop (l.length - n)

theorem monRun_history_length (init : Bool) (rs : List Bool) :
    (monRun init rs).history.length = 5 := by
  induction rs using List.reverseRecOn with
  | nil => cases init <;> simp [monRun, monInit]
  | append_singleton rs r ih =>
    have hrun : monRun init (rs ++ [r]) = monTick (monRun init rs) r := by
      simp [monRun, List.foldl_append]
    rw [hrun]
    show ((monRun init rs).history.drop 1 ++ [r]).length = 5
    simp [ih]

theorem monRun_history_window (init : Bool) (rs : List Bool) :
    (monRun init rs).history = lastN 5 (List.replicate 5 init ++ rs) := by
  induction rs using List.reverseRecOn with
  | nil => cases init <;> simp [monRun, monInit, lastN]
  | append_singleton rs r ih =>
    have hrun : monRun init (rs ++ [r]) = monTick (monRun init rs) r := by
      simp [monRun, List.foldl_append]
    have hL : (List.replicate 5 init ++ rs).length = 5 + rs.length := by
      simp only [List.length_append, List.length_replicate]
    have hstep : (monRun init (rs ++ [r])).history = (monRun init rs).history.drop 1 ++ [r] := by
      rw [hrun]; rfl
    have key : ∀ L : List Bool, L.length = 5 + rs.length →
        (lastN 5 L).drop 1 ++ [r] = lastN 5 (L ++ [r]) := by
      intro L hLen
      have h1 : (L ++ [r]).length - 5 = rs.length + 1 := by
        simp only [List.length_append, List.length_singleton, hLen]
        omega
      have h2 : (L ++ [r]).drop (rs.length + 1) = L.drop (rs.length + 1) ++ [r] :=
        List.drop_append_of_le_length (by omega)
      have h3 : L.length - 5 = rs.length := by omega
      rw [lastN, lastN, h1, h2, h3, List.drop_drop]
    rw [hstep, ih, ← List.append_assoc]
    exact key _ hL

/-- C1: at every probe tick the health state follows 5-sample hysteresis over
the sliding window of the last 5 probe results (window initialised all-`Init`):
from UP the new state is DOWN exactly when fewer than 4 of the last 5 results
(including the current one) passed; from DOWN the new state is UP exactly when
all 5 passed. -/
theorem claim_C1 (init r : Bool) (rs : List Bool) :
    (monTick (monRun init rs) r).history = lastN 5 (List.replicate 5 init ++ rs ++ [r]) ∧
    ((monRun init rs).ok = true →
      ((monTick (monRun init rs) r).ok = false ↔
        passedCount (lastN 5 (List.replicate 5 init ++ rs ++ [r])) < 4)) ∧
    ((monRun init rs).ok = false →
      ((monTick (monRun init rs) r).ok = true ↔
        passedCount (lastN 5 (List.replicate 5 init ++ rs ++ [r])) = 5)) := by
  have hrun : monTick (monRun init rs) r = monRun init (rs ++ [r]) := by
    simp [monRun, List.foldl_append]
  have hwin : (monTick (monRun init rs) r).history =
      lastN 5 (List.replicate 5 init ++ rs ++ [r]) := by
    rw [hrun]
    have := monRun_history_window init (rs ++ [r])
    simpa using this
  refine ⟨hwin, ?_, ?_⟩
  · intro hok
    have hh : (monTick (monRun init rs) r).history =
        (monRun init rs).history.drop 1 ++ [r] := rfl
    set w := (monRun init rs).history.drop 1 ++ [r] with hw
    have hpw : passedCount (lastN 5 (List.replicate 5 init ++ rs ++ [r])) = passedCount w := by
      rw [← hwin, hh]
    rw [hpw]
    show (if (monRun init rs).ok then (if passedCount w < 4 then false else (monRun init rs).ok)
          else (if passedCount w > 4 then true else (monRun init rs).ok)) = false ↔
        passedCount w < 4
    rw [hok]
    by_cases hp : passedCount w < 4 <;> simp [hp]
  · intro hok
    have hh : (monTick (monRun init rs) r).history =
        (monRun init rs).history.drop 1 ++ [r] := rfl
    set w := (monRun init rs).history.drop 1 ++ [r] with hw
    have hpw : passedCount (lastN 5 (List.replicate 5 init ++ rs ++ [r])) = passedCount w := by
      rw [← hwin, hh]
    have hwlen : w.length = 5 := by
      have := monRun_history_length init rs
      simp [hw, this]
    have hple : passedCount w ≤ 5 := by
      have : (w.filter id).length ≤ w.length := List.length_filter_le _ _
      simpa [passedCount, hwlen] using this
    rw [hpw]
    show (if (monRun init rs).ok then (if passedCount w < 4 then false else (monRun init rs).ok)
          else (if passedCount w > 4 then true else (monRun init rs).ok)) = true ↔
        passedCount w = 5
    rw [hok]
    by_cases hp : passedCount w > 4
    · simp [hp]; omega
    · simp [hp]; omega

/-- Witness for C1 at a concrete input: instance initialised UP, results
T,T,T,F then F: state was UP, and the tick takes it DOWN iff fewer than 4 of
the last five passed. -/
theorem claim_C1_witness :
    (monRun true [true, true, true, false]).ok = true ∧
    ((monTick (monRun true [true, true, true, false]) false).ok = false ↔
      passedCount (lastN 5 (List.replicate 5 true ++ [true, true, true, false] ++ [false])) < 4) :=
  ⟨by decide, (claim_C1 true false [true, true, true, false]).2.1 (by decide)⟩

/-! ## Association-list facts shared by the pool/director models -/

section AListFacts

variable {α : Type} {β : Type} [DecidableEq α]

theorem mem_of_aget_eq_some {m : List (α × β)} {k : α} {v : β}
    (h : aget m k = some v) : (k, v) ∈ m := by
  induction m with
  | nil => simp [aget] at h
  | cons hd t ih =>
    obtain ⟨k₀, v₀⟩ := hd
    simp only [aget] at h
    by_cases h0 : k₀ = k
    · rw [if_pos h0] at h
      subst h0
      obtain rfl : v₀ = v := by simpa using h
      exact List.mem_cons_self _ _
    · rw [if_neg h0] at h
      exact List.mem_cons_of_mem _ (ih h)

theorem aget_eq_some_of_mem {m : List (α × β)} {k : α} {v : β}
    (hn : (m.map Prod.fst).Nodup) (h : (k, v) ∈ m) : aget m k = some v := by
  induction m with
  | nil => simp at h
  | cons hd t ih =>
    obtain ⟨k₀, v₀⟩ := hd
    simp only [List.map_cons, List.nodup_cons] at hn
    rcases List.mem_cons.mp h with heq | hmem
    · obtain ⟨rfl, rfl⟩ := Prod.mk.injEq .. ▸ heq
      simp [aget]
    · have hk : k₀ ≠ k := by
        intro he
        exact hn.1 (he ▸ (List.mem_map.mpr ⟨(k, v), hmem, rfl⟩))
      simp only [aget, if_neg hk]
      exact ih hn.2 hmem

theorem mem_keys_aput (m : List (α × β)) (k k' : α) (v : β) :
    k' ∈ (aput m k v).map Prod.fst ↔ k' ∈ m.map Prod.fst ∨ k' = k := by
  induction m with
  | nil => simp [aput]
  | cons hd t ih =>
    obtain ⟨k₀, v₀⟩ := hd
    by_cases h0 : k₀ = k
    · subst h0
      rw [show aput ((k₀, v₀) :: t) k₀ v = (k₀, v) :: t from by simp [aput]]
      simp only [List.map_cons, List.mem_cons]
      tauto
    · rw [show aput ((k₀, v₀) :: t) k v = (k₀, v₀) :: aput t k v from by simp [aput, h0]]
      simp only [List.map_cons, List.mem_cons, ih]
      tauto

theorem nodup_keys_aput {m : List (α × β)} (k : α) (v : β)
    (hn : (m.map Prod.fst).Nodup) : ((aput m k v).map Prod.fst).Nodup := by
  induction m with
  | nil => simp [aput]
  | cons hd t ih =>
    obtain ⟨k₀, v₀⟩ := hd
    simp only [List.map_cons, List.nodup_cons] at hn
    by_cases h0 : k₀ = k
    · subst h0
      rw [show aput ((k₀, v₀) :: t) k₀ v = (k₀, v) :: t from by simp [aput]]
      simp only [List.map_cons, List.nodup_cons]
      exact hn
    · rw [show aput ((k₀, v₀) :: t) k v = (k₀, v₀) :: aput t k v from by simp [aput, h0]]
      simp only [List.map_cons, List.nodup_cons]
      refine ⟨?_, ih hn.2⟩
      intro hmem
      rcases (mem_keys_aput t k k₀ v).mp hmem with h | h
      · exact hn.1 h
      · exact h0 h

end AListFacts

/-! ## BGP peer pool (src/bgp/message.go): `Pool.RIB` address filtering -/

/-- Model of `Pool.RIB` (src/bgp/message.go:680-690): keep only IPv4 addresses of the
supplied list (converted with `As4`); every other address is dropped before
the set is sent to the pool task. -/
def Pool.RIB (r : List Addr) : List Bytes :=
  r.foldl (fun f a => if a.is4 then f ++ [a.as4] else f) []

/-- Model of `dup` (src/bgp/message.go:696-701): element-wise copy of an `[]IP` slice,
made by the pool task before broadcasting to sessions. -/
def dup (i : List Bytes) : List Bytes :=
  i.foldl (fun o x => o ++ [x]) []

/-- Model of `toaddr` (src/unnamed/part_006:489-494): lift the `[4]byte` values back to
`netip.Addr` via `netip.AddrFrom4` when a session receives a RIB. -/
def toaddr (l : List Bytes) : List Addr := l.map Addr.v4

theorem dup_eq (i : List Bytes) : dup i = i := by
  suffices h : ∀ acc, i.foldl (fun o x => o ++ [x]) acc = acc ++ i by
    simpa using h []
  induction i with
  | nil => intro acc; simp
  | cons x t ih => intro acc; simp [ih]

theorem PoolRIB_eq (r : List Addr) :
    Pool.RIB r = (r.filter Addr.is4).map Addr.as4 := by
  suffices h : ∀ acc, r.foldl (fun f a => if a.is4 then f ++ [a.as4] else f) acc
      = acc ++ (r.filter Addr.is4).map Addr.as4 by
    simpa [Pool.RIB] using h []
  induction r with
  | nil => intro acc; simp
  | cons a t ih =>
    intro acc
    by_cases h : a.is4 <;> simp [h, ih]

/-- C10: `Pool.RIB` retains exactly the IPv4 addresses of its argument (as
their 4-byte forms) and the per-session RIB rebuilt from the broadcast list
contains only IPv4 addresses, so an IPv6 address supplied through the pool's
`RIB` interface is silently discarded and can never be advertised. -/
theorem claim_C10 (r : List Addr) :
    Pool.RIB r = (r.filter Addr.is4).map Addr.as4 ∧
    (∀ x ∈ toaddr (dup (Pool.RIB r)), x.is4 = true) ∧
    (∀ a ∈ r, a.is6 = true → ∀ x ∈ toaddr (dup (Pool.RIB r)), x ≠ a) := by
  refine ⟨PoolRIB_eq r, ?_, ?_⟩
  · intro x hx
    simp only [toaddr, dup_eq, List.mem_map] at hx
    obtain ⟨b, _, rfl⟩ := hx
    rfl
  · intro a _ ha x hx
    simp only [toaddr, dup_eq, List.mem_map] at hx
    obtain ⟨b, _, rfl⟩ := hx
    intro he
    rw [← he] at ha
    simp [Addr.is6] at ha

/-- Witness for C10 at a concrete input: a mixed v4/v6 list. -/
theorem claim_C10_witness :
    Pool.RIB [Addr.v4 [192, 168, 0, 1], Addr.v6 (List.replicate 16 0)] =
      ([Addr.v4 [192, 168, 0, 1], Addr.v6 (List.replicate 16 0)].filter Addr.is4).map Addr.as4 ∧
    (Addr.v4 [192, 168, 0, 1] ∈ [Addr.v4 [192, 168, 0, 1], Addr.v6 (List.replicate 16 0)]) ∧
    ∀ x ∈ toaddr (dup (Pool.RIB [Addr.v4 [192, 168, 0, 1], Addr.v6 (List.replicate 16 0)])),
      x.is4 = true :=
  ⟨(claim_C10 _).1, by decide, (claim_C10 _).2.1⟩

/-! ## Director data model (src/unnamed/part_009, package cue) -/

/-- Protocol numbers (src/unnamed/part_009:31-34). -/
def TCP : Nat := 0x06

def UDP : Nat := 0x11

/-- Model of `mon.Check` (src/mon/mon.go:381-399); the Go field `Type` is `Typ` here. -/
structure Check where
  Typ : String
  Port : Nat
  Host : String
  Path : String
  Expect : List Int
  Method : Bool
deriving DecidableEq

/-- Model of `mon.Status` (src/mon/mon.go:138-145); time/duration fields omitted. -/
structure MonStatus where
  OK : Bool
  Diagnostic : String
  Initialised : Bool
deriving DecidableEq

/-- Model of `cue.Destination` (src/unnamed/part_009:52-59). -/
structure Destination where
  Address : Addr
  Port : Nat
  Disabled : Bool
  Weight : Nat
  Status : MonStatus
  Checks : List Check
deriving DecidableEq

/-- Model of `cue.Service` (src/unnamed/part_009:39-50); `When` (time) omitted. -/
structure Service where
  Address : Addr
  Port : Nat
  Protocol : Nat
  Scheduler : Nat
  Sticky : Bool
  Required : Nat
  Destinations : List Destination
  available : Nat
  Up : Bool
deriving DecidableEq

/-- Model of `mon.Service` — the service tuple (src/mon/mon.go:99-103). -/
structure MonService where
  Address : Addr
  Port : Nat
  Protocol : Nat
deriving DecidableEq

/-- Model of `mon.Destination` (src/mon/mon.go:105-108). -/
structure MonDestination where
  Address : Addr
  Port : Nat
deriving DecidableEq

/-- Model of `mon.Instance` (src/mon/mon.go:119-122). -/
structure MonInstance where
  Service : MonService
  Destination : MonDestination
deriving DecidableEq

/-- Model of `mon.Target` (src/mon/mon.go:126-129). -/
structure Target where
  Init : Bool
  Checks : List Check
deriving DecidableEq

/-- Model of `AllVIPs` (src/unnamed/part_009:371-383): the distinct VIP addresses of a
service list (keys of the map built by `vips[s.Address] = true`). -/
def AllVIPs (services : List Service) : List Addr :=
  (services.foldl (fun m s => aput m s.Address true) []).map Prod.fst

/-- Loop body of `HealthyVIPs` (src/unnamed/part_009:389-399): an `Up` service
marks its VIP healthy only if the VIP is not yet present; a down service
unconditionally marks it unhealthy. -/
def healthyStep (m : List (Addr × Bool)) (s : Service) : List (Addr × Bool) :=
  if s.Up then (if (aget m s.Address).isSome then m else aput m s.Address true)
  else aput m s.Address false

/-- Model of `HealthyVIPs` (src/unnamed/part_009:385-408): VIPs whose final mark is
`true` (every service on the VIP is `Up`). -/
def HealthyVIPs (services : List Service) : List Addr :=
  ((services.foldl healthyStep []).filter Prod.snd).map Prod.fst

theorem allvips_mem (services : List Service) (a : Addr) :
    a ∈ AllVIPs services ↔ a ∈ services.map Service.Address := by
  suffices h : ∀ acc : List (Addr × Bool),
      (a ∈ (services.foldl (fun m s => aput m s.Address true) acc).map Prod.fst ↔
        a ∈ acc.map Prod.fst ∨ a ∈ services.map Service.Address) by
    simpa [AllVIPs] using h []
  induction services with
  | nil => intro acc; simp
  | cons s t ih =>
    intro acc
    simp only [List.foldl_cons, ih, mem_keys_aput, List.map_cons, List.mem_cons]
    tauto

theorem mem_filter_map_alist {m : List (Addr × Bool)} (hn : (m.map Prod.fst).Nodup) (a : Addr) :
    a ∈ (m.filter Prod.snd).map Prod.fst ↔ aget m a = some true := by
  constructor
  · intro h
    obtain ⟨kv, hkv, rfl⟩ := List.mem_map.mp h
    have hf := List.mem_filter.mp hkv
    have hb : kv.2 = true := by simpa using hf.2
    have hm : (kv.1, kv.2) ∈ m := by simpa using hf.1
    rw [hb] at hm
    exact aget_eq_some_of_mem hn hm
  · intro h
    have hm := mem_of_aget_eq_some h
    exact List.mem_map.mpr ⟨(a, true), List.mem_filter.mpr ⟨hm, by simp⟩, rfl⟩

theorem healthyStep_spec (acc : List (Addr × Bool)) (s : Service) (processed : List Service)
    (hnd : (acc.map Prod.fst).Nodup)
    (hT : ∀ a, aget acc a = some true ↔
      (a ∈ processed.map Service.Address ∧ ∀ u ∈ processed, u.Address = a → u.Up = true))
    (hF : ∀ a, aget acc a = some false ↔ (∃ u ∈ processed, u.Address = a ∧ u.Up = false)) :
    ((healthyStep acc s).map Prod.fst).Nodup ∧
    (∀ a, aget (healthyStep acc s) a = some true ↔
      (a ∈ (processed ++ [s]).map Service.Address ∧
        ∀ u ∈ processed ++ [s], u.Address = a → u.Up = true)) ∧
    (∀ a, aget (healthyStep acc s) a = some false ↔
      (∃ u ∈ processed ++ [s], u.Address = a ∧ u.Up = false)) := by
  have hmem : ∀ a, a ∈ (processed ++ [s]).map Service.Address ↔
      a ∈ processed.map Service.Address ∨ a = s.Address := by
    intro a; simp
  have hall : ∀ a, (∀ u ∈ processed ++ [s], u.Address = a → u.Up = true) ↔
      ((∀ u ∈ processed, u.Address = a → u.Up = true) ∧ (s.Address = a → s.Up = true)) := by
    intro a
    constructor
    · intro h
      exact ⟨fun u hu => h u (List.mem_append.mpr (Or.inl hu)),
        h s (List.mem_append.mpr (Or.inr (List.mem_singleton.mpr rfl)))⟩
    · rintro ⟨h1, h2⟩ u hu
      rcases List.mem_append.mp hu with h | h
      · exact h1 u h
      · rw [List.mem_singleton] at h
        subst h
        exact h2
  have hex : ∀ a, (∃ u ∈ processed ++ [s], u.Address = a ∧ u.Up = false) ↔
      ((∃ u ∈ processed, u.Address = a ∧ u.Up = false) ∨ (s.Address = a ∧ s.Up = false)) := by
    intro a
    constructor
    · rintro ⟨u, hu, hua, hdn⟩
      rcases List.mem_append.mp hu with h | h
      · exact Or.inl ⟨u, h, hua, hdn⟩
      · rw [List.mem_singleton] at h
        subst h
        exact Or.inr ⟨hua, hdn⟩
    · rintro (⟨u, hu, hua, hdn⟩ | ⟨hua, hdn⟩)
      · exact ⟨u, List.mem_append.mpr (Or.inl hu), hua, hdn⟩
      · exact ⟨s, List.mem_append.mpr (Or.inr (List.mem_singleton.mpr rfl)), hua, hdn⟩
  by_cases hup : s.Up
  · by_cases hsome : (aget acc s.Address).isSome
    · -- VIP already present: the map is unchanged
      have hstep : healthyStep acc s = acc := by
        simp [healthyStep, hup, hsome]
      rw [hstep]
      refine ⟨hnd, fun a => ?_, fun a => ?_⟩
      · rw [hmem, hall]
        by_cases ha : a = s.Address
        · subst ha
          rcases hb : aget acc s.Address with _ | b
          · rw [hb] at hsome; simp at hsome
          · cases b
            · -- marked unhealthy: some service on the VIP was down
              have hdown := (hF s.Address).mp hb
              constructor
              · intro h
                exact absurd h (by simp)
              · rintro ⟨_, hallp, _⟩
                obtain ⟨u, hu, hua, huup⟩ := hdown
                rw [hallp u hu hua] at huup
                cases huup
            · have hok := (hT s.Address).mp hb
              constructor
              · intro _
                exact ⟨Or.inl hok.1, hok.2, fun _ => hup⟩
              · intro _; rfl
        · rw [hT a]
          constructor
          · rintro ⟨h1, h2⟩
            exact ⟨Or.inl h1, h2, fun he => absurd he.symm ha⟩
          · rintro ⟨h1, h2, _⟩
            rcases h1 with h1 | h1
            · exact ⟨h1, h2⟩
            · exact absurd h1.symm (fun he => ha he.symm)
      · rw [hex, hF a]
        constructor
        · exact fun h => Or.inl h
        · rintro (h | ⟨_, hdn⟩)
          · exact h
          · simp [hup] at hdn
    · -- VIP absent so far: insert `true`
      have hstep : healthyStep acc s = aput acc s.Address true := by
        simp [healthyStep, hup, hsome]
      have hnone : aget acc s.Address = none := by
        rcases hb : aget acc s.Address with _ | b
        · rfl
        · rw [hb] at hsome; simp at hsome
      have hnotmem : s.Address ∉ processed.map Service.Address := by
        intro hin
        by_cases hd : ∃ u ∈ processed, u.Address = s.Address ∧ u.Up = false
        · have := (hF s.Address).mpr hd
          rw [hnone] at this; cases this
        · push_neg at hd
          have hallp : ∀ u ∈ processed, u.Address = s.Address → u.Up = true := by
            intro u hu hua
            rcases hv : u.Up with _ | _
            · exact absurd hv (hd u hu hua)
            · rfl
          have := (hT s.Address).mpr ⟨hin, hallp⟩
          rw [hnone] at this; cases this
      rw [hstep]
      refine ⟨nodup_keys_aput _ _ hnd, fun a => ?_, fun a => ?_⟩
      · rw [aget_aput, hmem, hall]
        by_cases ha : a = s.Address
        · subst ha
          rw [if_pos rfl]
          constructor
          · intro _
            refine ⟨Or.inr rfl, ?_, fun _ => hup⟩
            intro u hu hua
            exact absurd (hua ▸ List.mem_map.mpr ⟨u, hu, rfl⟩) hnotmem
          · intro _; rfl
        · rw [if_neg ha, hT a]
          constructor
          · rintro ⟨h1, h2⟩
            exact ⟨Or.inl h1, h2, fun he => absurd he.symm ha⟩
          · rintro ⟨h1, h2, _⟩
            rcases h1 with h1 | h1
            · exact ⟨h1, h2⟩
            · exact absurd h1.symm (fun he => ha he.symm)
      · rw [aget_aput, hex]
        by_cases ha : a = s.Address
        · subst ha
          rw [if_pos rfl]
          constructor
          · intro h; cases h
          · rintro (⟨u, hu, hua, _⟩ | ⟨_, hdn⟩)
            · exact absurd (hua ▸ List.mem_map.mpr ⟨u, hu, rfl⟩) hnotmem
            · simp [hup] at hdn
        · rw [if_neg ha, hF a]
          constructor
          · exact fun h => Or.inl h
          · rintro (h | ⟨he, _⟩)
            · exact h
            · exact absurd he.symm ha
  · -- down service: insert `false`
    have hup' : s.Up = false := by
      rcases hv : s.Up with _ | _
      · rfl
      · exact absurd hv hup
    have hstep : healthyStep acc s = aput acc s.Address false := by
      simp [healthyStep, hup]
    rw [hstep]
    refine ⟨nodup_keys_aput _ _ hnd, fun a => ?_, fun a => ?_⟩
    · rw [aget_aput, hmem, hall]
      by_cases ha : a = s.Address
      · subst ha
        rw [if_pos rfl]
        constructor
        · intro h; cases h
        · rintro ⟨_, _, hs⟩
          rw [hs rfl] at hup'
          cases hup'
      · rw [if_neg ha, hT a]
        constructor
        · rintro ⟨h1, h2⟩
          exact ⟨Or.inl h1, h2, fun he => absurd he.symm ha⟩
        · rintro ⟨h1, h2, _⟩
          rcases h1 with h1 | h1
          · exact ⟨h1, h2⟩
          · exact absurd h1.symm (fun he => ha he.symm)
    · rw [aget_aput, hex]
      by_cases ha : a = s.Address
      · subst ha
        rw [if_pos rfl]
        constructor
        · intro _
          exact Or.inr ⟨rfl, hup'⟩
        · intro _; rfl
      · rw [if_neg ha, hF a]
        constructor
        · exact fun h => Or.inl h
        · rintro (h | ⟨he, _⟩)
          · exact h
          · exact absurd he.symm ha

theorem healthy_fold_spec (l : List Service) :
    ∀ (processed : List Service) (acc : List (Addr × Bool)),
    (acc.map Prod.fst).Nodup →
    (∀ a, aget acc a = some true ↔
      (a ∈ processed.map Service.Address ∧ ∀ u ∈ processed, u.Address = a → u.Up = true)) →
    (∀ a, aget acc a = some false ↔ (∃ u ∈ processed, u.Address = a ∧ u.Up = false)) →
    ((l.foldl healthyStep acc).map Prod.fst).Nodup ∧
    (∀ a, aget (l.foldl healthyStep acc) a = some true ↔
      (a ∈ (processed ++ l).map Service.Address ∧
        ∀ u ∈ processed ++ l, u.Address = a → u.Up = true)) ∧
    (∀ a, aget (l.foldl healthyStep acc) a = some false ↔
      (∃ u ∈ processed ++ l, u.Address = a ∧ u.Up = false)) := by
  induction l with
  | nil =>
    intro processed acc hnd hT hF
    rw [List.foldl_nil, List.append_nil]
    exact ⟨hnd, hT, hF⟩
  | cons s t ih =>
    intro processed acc hnd hT hF
    obtain ⟨hnd', hT', hF'⟩ := healthyStep_spec acc s processed hnd hT hF
    have hres := ih (processed ++ [s]) (healthyStep acc s) hnd' hT' hF'
    have hassoc : processed ++ [s] ++ t = processed ++ s :: t := by
      rw [List.append_assoc, List.singleton_append]
    rw [hassoc] at hres
    rw [List.foldl_cons]
    exact hres

/-- C9: `HealthyVIPs` is a subset of `AllVIPs`, and a VIP of the service list
is healthy iff every service carrying that address is `Up`. -/
theorem claim_C9 (services : List Service) (a : Addr) :
    (a ∈ HealthyVIPs services → a ∈ AllVIPs services) ∧
    (a ∈ AllVIPs services →
      (a ∈ HealthyVIPs services ↔ ∀ s ∈ services, s.Address = a → s.Up = true)) := by
  have hbase := healthy_fold_spec services [] []
    (by simp) (by intro a; simp [aget]) (by intro a; simp [aget])
  obtain ⟨hnd, hT, hF⟩ := hbase
  have hmemH : a ∈ HealthyVIPs services ↔
      (a ∈ services.map Service.Address ∧ ∀ u ∈ services, u.Address = a → u.Up = true) := by
    rw [HealthyVIPs, mem_filter_map_alist hnd]
    simpa using hT a
  constructor
  · intro h
    rw [allvips_mem]
    exact (hmemH.mp h).1
  · intro hall
    rw [allvips_mem] at hall
    rw [hmemH]
    constructor
    · exact fun h => h.2
    · exact fun h => ⟨hall, h⟩

/-- A concrete service list for the C9 witness: one VIP carrying an `Up`
service and a down one. -/
def svcsC9 : List Service :=
  [{ Address := Addr.v4 [10, 0, 0, 1], Port := 80, Protocol := TCP, Scheduler := 0,
     Sticky := false, Required := 1, Destinations := [], available := 0, Up := true },
   { Address := Addr.v4 [10, 0, 0, 1], Port := 443, Protocol := TCP, Scheduler := 0,
     Sticky := false, Required := 1, Destinations := [], available := 0, Up := false }]

/-- Witness for C9 at a concrete input. -/
theorem claim_C9_witness :
    (Addr.v4 [10, 0, 0, 1] ∈ HealthyVIPs svcsC9 → Addr.v4 [10, 0, 0, 1] ∈ AllVIPs svcsC9) ∧
    (Addr.v4 [10, 0, 0, 1] ∈ AllVIPs svcsC9) ∧
    (Addr.v4 [10, 0, 0, 1] ∈ HealthyVIPs svcsC9 ↔
      ∀ s ∈ svcsC9, s.Address = Addr.v4 [10, 0, 0, 1] → s.Up = true) :=
  ⟨(claim_C9 svcsC9 (Addr.v4 [10, 0, 0, 1])).1, by decide,
    (claim_C9 svcsC9 (Addr.v4 [10, 0, 0, 1])).2 (by decide)⟩

/-! ## `Director.Configure` (src/unnamed/part_009:165-243) -/

/-- Service tuple key used by the director (`tuple = mon.Service`;
src/unnamed/part_009:66 and 172). -/
def tupleOf (s : Service) : MonService :=
  { Address := s.Address, Port := s.Port, Protocol := s.Protocol }

/-- First loop of `Configure` (src/unnamed/part_009:169-174): index the
supplied services by tuple; a later service silently overwrites an earlier
one with the same tuple. -/
def buildCfg (config : List Service) : List (MonService × Service) :=
  config.foldl (fun m s => aput m (tupleOf s) s) []

/-- Per-service validation (src/unnamed/part_009:187-201). -/
def validateService (s : Service) : Option String :=
  if s.Port = 0 then some "Service port cannot be 0"
  else if s.Protocol ≠ TCP ∧ s.Protocol ≠ UDP then some "Only TCP and UDP protocols supported"
  else if s.Destinations.any (fun d => d.Port = 0) then some "Destination port cannot be 0"
  else none

/-- The validation loop over the indexed configuration: the first error found
is returned (src/unnamed/part_009:187-201). -/
def firstErr : List (MonService × Service) → Option String
  | [] => none
  | (_, s) :: t =>
    match validateService s with
    | some e => some e
    | none => firstErr t

/-- Expansion to monitor targets with the initial-up policy
(src/unnamed/part_009:203-221): `init = vips[s.Address] && !svcs[service]`
where `vips`/`svcs` come from the previous configuration `d.cfg`. -/
def targetsFor (prev cfg : List (MonService × Service)) : List (MonInstance × Target) :=
  cfg.foldl (fun services kv =>
    let s := kv.2
    let service : MonService := { Address := s.Address, Port := s.Port, Protocol := s.Protocol }
    let init := decide (s.Address ∈ prev.map (fun kv => kv.1.Address)) &&
                !(decide (service ∈ prev.map Prod.fst))
    s.Destinations.foldl (fun services d =>
      aput services
        { Service := service, Destination := { Address := d.Address, Port := d.Port } }
        { Init := init, Checks := d.Checks }) services) []

/-- Model of `Director.Configure` (src/unnamed/part_009:165-243): validate the indexed
configuration and either report the first error or produce the new `d.cfg`
and the monitor target map. -/
def Configure (dcfg : List (MonService × Service)) (config : List Service) :
    Except String (List (MonService × Service) × List (MonInstance × Target)) :=
  let cfg := buildCfg config
  match firstErr cfg with
  | some e => .error e
  | none => .ok (cfg, targetsFor dcfg cfg)

/-- The director/monitor state touched by `Configure`. -/
structure DirectorState where
  cfg : List (MonService × Service)
  monTargets : List (MonInstance × Target)
deriving DecidableEq

/-- One `Configure` call on the combined state: errors are returned before
`d.cfg = cfg` and `d.mon.Update(services)` run, so the old state is kept. -/
def configureStep (st : DirectorState) (config : List Service) :
    DirectorState × Option String :=
  match Configure st.cfg config with
  | .error e => (st, some e)
  | .ok (c, t) => ({ cfg := c, monTargets := t }, none)

/-- Whether an `Except` result is an error. -/
def configErred {ε α : Type} : Except ε α → Bool
  | .error _ => true
  | .ok _ => false

theorem firstErr_isSome (cfg : List (MonService × Service)) :
    (firstErr cfg).isSome = true ↔ ∃ kv ∈ cfg, (validateService kv.2).isSome = true := by
  induction cfg with
  | nil => simp [firstErr]
  | cons kv t ih =>
    obtain ⟨k, s⟩ := kv
    rcases hv : validateService s with _ | e
    · have hstep : firstErr ((k, s) :: t) = firstErr t := by
        simp [firstErr, hv]
      rw [hstep, ih]
      constructor
      · rintro ⟨kv, h1, h2⟩
        exact ⟨kv, List.mem_cons_of_mem _ h1, h2⟩
      · rintro ⟨kv, h1, h2⟩
        rcases List.mem_cons.mp h1 with rfl | h1
        · simp [hv] at h2
        · exact ⟨kv, h1, h2⟩
    · have hstep : firstErr ((k, s) :: t) = some e := by
        simp [firstErr, hv]
      rw [hstep]
      simp only [Option.isSome_some, true_iff]
      exact ⟨(k, s), List.mem_cons_self _ _, by simp [hv]⟩

theorem aget_foldl_aput_inv {α β γ : Type} [DecidableEq α] (P : α → β → Prop)
    (key : γ → α) (val : γ → β) :
    ∀ (l : List γ) (acc : List (α × β)),
    (∀ k v, aget acc k = some v → P k v) → (∀ g ∈ l, P (key g) (val g)) →
    ∀ k v, aget (l.foldl (fun m g => aput m (key g) (val g)) acc) k = some v → P k v := by
  intro l
  induction l with
  | nil => intro acc hacc _ k v h; exact hacc k v h
  | cons g t ih =>
    intro acc hacc hl k v h
    rw [List.foldl_cons] at h
    refine ih _ ?_ (fun g' hg' => hl g' (List.mem_cons_of_mem _ hg')) k v h
    intro k' v' hk'
    rw [aget_aput] at hk'
    by_cases hk : k' = key g
    · rw [if_pos hk] at hk'
      have hv : v' = val g := by
        injection hk' with h'
        exact h'.symm
      subst hk
      subst hv
      exact hl g (List.mem_cons_self _ _)
    · rw [if_neg hk] at hk'
      exact hacc k' v' hk'

theorem targetsFor_init (prev cfg : List (MonService × Service)) :
    ∀ i tg, aget (targetsFor prev cfg) i = some tg →
      tg.Init = (decide (i.Service.Address ∈ prev.map (fun kv => kv.1.Address)) &&
                 !(decide (i.Service ∈ prev.map Prod.fst))) := by
  rw [targetsFor]
  have hgen : ∀ (acc : List (MonInstance × Target)),
      (∀ i tg, aget acc i = some tg →
        tg.Init = (decide (i.Service.Address ∈ prev.map (fun kv => kv.1.Address)) &&
                   !(decide (i.Service ∈ prev.map Prod.fst)))) →
      ∀ i tg, aget (cfg.foldl (fun services kv =>
        let s := kv.2
        let service : MonService := { Address := s.Address, Port := s.Port, Protocol := s.Protocol }
        let init := decide (s.Address ∈ prev.map (fun kv => kv.1.Address)) &&
                    !(decide (service ∈ prev.map Prod.fst))
        s.Destinations.foldl (fun services d =>
          aput services
            { Service := service, Destination := { Address := d.Address, Port := d.Port } }
            { Init := init, Checks := d.Checks }) services) acc) i = some tg →
        tg.Init = (decide (i.Service.Address ∈ prev.map (fun kv => kv.1.Address)) &&
                   !(decide (i.Service ∈ prev.map Prod.fst))) := by
    induction cfg with
    | nil => intro acc hacc; exact hacc
    | cons kv t ih =>
      intro acc hacc
      rw [List.foldl_cons]
      apply ih
      intro i tg h
      refine aget_foldl_aput_inv
        (fun i tg => tg.Init =
          (decide (i.Service.Address ∈ prev.map (fun kv => kv.1.Address)) &&
           !(decide (i.Service ∈ prev.map Prod.fst))))
        (fun d => { Service := { Address := kv.2.Address, Port := kv.2.Port,
                                 Protocol := kv.2.Protocol },
                    Destination := { Address := d.Address, Port := d.Port } })
        (fun d => { Init := decide (kv.2.Address ∈ prev.map (fun kv => kv.1.Address)) &&
                            !(decide (({ Address := kv.2.Address, Port := kv.2.Port,
                                         Protocol := kv.2.Protocol } : MonService)
                              ∈ prev.map Prod.fst)),
                    Checks := d.Checks })
        kv.2.Destinations acc hacc ?_ i tg h
      intro d _
      rfl
  exact hgen [] (by intro i tg h; simp [aget] at h)

/-- C8: every destination instance handed to the monitor by a successful
`Configure` is initialised up exactly when its VIP appeared in the previous
configuration and its exact service tuple did not. -/
theorem claim_C8 (st : DirectorState) (config : List Service)
    (c : List (MonService × Service)) (t : List (MonInstance × Target))
    (h : Configure st.cfg config = .ok (c, t)) (i : MonInstance) (tg : Target)
    (hi : aget t i = some tg) :
    tg.Init = (decide (i.Service.Address ∈ st.cfg.map (fun kv => kv.1.Address)) &&
               !(decide (i.Service ∈ st.cfg.map Prod.fst))) := by
  have ht : targetsFor st.cfg (buildCfg config) = t := by
    rcases hfe : firstErr (buildCfg config) with _ | e
    · have hok : (Except.ok (buildCfg config, targetsFor st.cfg (buildCfg config)) :
          Except String _) = .ok (c, t) := by
        rw [← h]
        simp [Configure, hfe]
      injection hok with h'
      exact congrArg Prod.snd h'
    · rw [Configure] at h
      simp only [hfe] at h
      cases h
  rw [← ht] at hi
  exact targetsFor_init st.cfg (buildCfg config) i tg hi

/-- A valid service used by the C7 counterexample. -/
def svcC7a : Service :=
  { Address := Addr.v4 [10, 0, 0, 2], Port := 80, Protocol := TCP, Scheduler := 0,
    Sticky := false, Required := 1, Destinations := [], available := 0, Up := false }

/-- A second, different service sharing `svcC7a`'s (VIP, Port, Protocol)
tuple. -/
def svcC7b : Service :=
  { Address := Addr.v4 [10, 0, 0, 2], Port := 80, Protocol := TCP, Scheduler := 0,
    Sticky := false, Required := 2, Destinations := [], available := 0, Up := false }

/-- C7 counterexample: two distinct services sharing the same
(VIP, Port, Protocol) tuple are accepted without error — the map indexing
step silently keeps the later one instead of rejecting the duplicate, so
`Configure` does not return an error in every case the claim lists. -/
theorem claim_C7_counterexample :
    tupleOf svcC7a = tupleOf svcC7b ∧ svcC7a ≠ svcC7b ∧
    configErred (Configure [] [svcC7a, svcC7b]) = false := by decide

/-- C7 (amended): `Configure` returns an error exactly when, after indexing
by service tuple (later duplicates silently overwriting earlier ones), some
retained service has Port 0, a protocol other than TCP/UDP, or a destination
with Port 0; duplicate tuples are not rejected.  Whenever an error is
returned, the stored configuration and the monitor targets are unchanged. -/
theorem claim_C7 (st : DirectorState) (config : List Service) :
    (configErred (Configure st.cfg config) = true ↔
      ∃ kv ∈ buildCfg config, (validateService kv.2).isSome = true) ∧
    ((configureStep st config).2.isSome = true → (configureStep st config).1 = st) := by
  constructor
  · rw [← firstErr_isSome]
    rcases hfe : firstErr (buildCfg config) with _ | e
    · have : configErred (Configure st.cfg config) = false := by
        simp [Configure, hfe, configErred]
      rw [this]
      simp
    · have : configErred (Configure st.cfg config) = true := by
        simp [Configure, hfe, configErred]
      rw [this]
      simp
  · intro herr
    rcases hc : Configure st.cfg config with e | p
    · simp [configureStep, hc]
    · rw [configureStep] at herr
      simp only [hc] at herr
      cases herr

/-- Witness for C7 at a concrete erroring input (a service with Port 0):
the error is reported and the prior state is preserved. -/
theorem claim_C7_witness :
    ((configureStep
        { cfg := [({ Address := Addr.v4 [10, 0, 0, 2], Port := 80, Protocol := TCP }, svcC7a)],
          monTargets := [] }
        [{ svcC7a with Port := 0 }]).2.isSome = true) ∧
    (configureStep
        { cfg := [({ Address := Addr.v4 [10, 0, 0, 2], Port := 80, Protocol := TCP }, svcC7a)],
          monTargets := [] }
        [{ svcC7a with Port := 0 }]).1 =
      { cfg := [({ Address := Addr.v4 [10, 0, 0, 2], Port := 80, Protocol := TCP }, svcC7a)],
        monTargets := [] } :=
  ⟨by decide, (claim_C7 _ _).2 (by decide)⟩

/-- Prior configuration for the C8 witness: VIP 10.0.0.3 already carries a
service on port 80. -/
def cfgC8 : List (MonService × Service) :=
  [({ Address := Addr.v4 [10, 0, 0, 3], Port := 80, Protocol := TCP },
    { Address := Addr.v4 [10, 0, 0, 3], Port := 80, Protocol := TCP, Scheduler := 0,
      Sticky := false, Required := 1, Destinations := [], available := 0, Up := true })]

/-- New configuration for the C8 witness: a new service (port 443) on the
existing VIP, with one destination. -/
def svcC8 : Service :=
  { Address := Addr.v4 [10, 0, 0, 3], Port := 443, Protocol := TCP, Scheduler := 0,
    Sticky := false, Required := 1,
    Destinations := [{ Address := Addr.v4 [192, 168, 1, 1], Port := 8443, Disabled := false,
                       Weight := 1,
                       Status := { OK := false, Diagnostic := "", Initialised := false },
                       Checks := [] }],
    available := 0, Up := false }

/-- The instance the C8 witness looks up. -/
def instC8 : MonInstance :=
  { Service := { Address := Addr.v4 [10, 0, 0, 3], Port := 443, Protocol := TCP },
    Destination := { Address := Addr.v4 [192, 168, 1, 1], Port := 8443 } }

/-- Witness for C8 at a concrete input: adding a new service to an existing
VIP initialises its destination up. -/
theorem claim_C8_witness :
    (Configure cfgC8 [svcC8] =
      .ok (buildCfg [svcC8], targetsFor cfgC8 (buildCfg [svcC8]))) ∧
    (aget (targetsFor cfgC8 (buildCfg [svcC8])) instC8 =
      some { Init := true, Checks := [] }) ∧
    (true : Bool) =
      (decide (instC8.Service.Address ∈ cfgC8.map (fun kv => kv.1.Address)) &&
       !(decide (instC8.Service ∈ cfgC8.map Prod.fst))) :=
  ⟨rfl, by decide,
    claim_C8 { cfg := cfgC8, monTargets := [] } [svcC8]
      (buildCfg [svcC8]) (targetsFor cfgC8 (buildCfg [svcC8])) rfl
      instC8 { Init := true, Checks := [] } (by decide)⟩

/-! ## BGP parameters, prefix filter and NLRI diff (src/unnamed/part_005) -/

/-- Model of `netip.Prefix` — a base address plus a bit count (named `CIDR` here). -/
structure CIDR where
  addr : Addr
  bits : Nat
deriving DecidableEq

/-- Bit `i` (most-significant first) of a byte string. -/
def byteBit (b : Bytes) (i : Nat) : Bool :=
  decide ((((b.get? (i / 8)).getD 0) / 2 ^ (7 - i % 8)) % 2 = 1)

/-- Model of `netip.Prefix.Contains` (Go standard library `net/netip`): the families
must match and the first `bits` bits of the address must equal those of the
prefix's base address. -/
def CIDR.Contains (n : CIDR) (a : Addr) : Bool :=
  (n.addr.is4 == a.is4) &&
    decide (∀ i < n.bits, byteBit (if a.is4 then a.as4 else a.as16) i =
      byteBit (if n.addr.is4 then n.addr.as4 else n.addr.as16) i)

/-- Model of `bgp.Parameters` — declared in bgp.go of this repository, which is not
under src/; fields follow the spec's data model (§3 "BGP Parameters"). -/
structure Parameters where
  ASNumber : Nat
  HoldTime : Nat
  SourceIP : Bytes
  NextHop4 : Bytes
  NextHop6 : Bytes
  Multiprotocol : Bool
  LocalPref : Nat
  MED : Nat
  Communities : List Nat
  Accept : List CIDR
  Reject : List CIDR
deriving DecidableEq

/-- Modelled from the spec: `Parameters.Diff` is declared in code of this
repository that is not under src/ (only its callers appear, e.g.
src/unnamed/part_006:899 and src/unnamed/part_005:183).  Spec §4.4:
"`parameters_differ` is true iff `LocalPref`, `MED`, or `Communities`
changed". -/
def Parameters.Diff (p q : Parameters) : Bool :=
  decide (p.LocalPref ≠ q.LocalPref) || decide (p.MED ≠ q.MED) ||
    decide (p.Communities ≠ q.Communities)

/-- One iteration of the `filter:` loop of `Parameters.Filter`
(src/unnamed/part_005:76-113): wrong-family addresses are dropped when not
multiprotocol; an address inside any Accept prefix passes immediately; else
an address inside any Reject prefix is dropped; else it passes. -/
def Parameters.passes (p : Parameters) (ipv6 : Bool) (i : Addr) : Bool :=
  if !p.Multiprotocol && ((i.is6 && !ipv6) || (i.is4 && ipv6)) then false
  else if p.Accept.any (fun n => n.Contains i) then true
  else if p.Reject.any (fun n => n.Contains i) then false
  else true

/-- Model of `Parameters.Filter` (src/unnamed/part_005:76-113). -/
def Parameters.Filter (p : Parameters) (ipv6 : Bool) (dest : List Addr) : List Addr :=
  dest.filter (p.passes ipv6)

/-- Model of `_update` (src/unnamed/part_005:28-31): a RIB snapshot paired with its
announcement parameters. -/
structure RibUpdate where
  RIB : List Addr
  Parameters : Parameters
deriving DecidableEq

/-- Model of `_update.adjRIBOut` (src/unnamed/part_005:56-58). -/
def RibUpdate.adjRIBOut (u : RibUpdate) (ipv6 : Bool) : List Addr :=
  u.Parameters.Filter ipv6 u.RIB

/-- Model of `NLRI` (src/unnamed/part_005:146-175): build the `new`/`old` sets, mark
addresses leaving the set for withdrawal, and mark fresh (or, when `force`
is set, all current) addresses for advertisement; return the current list
and the NLRI map. -/
def NLRI (curr prev : List Addr) (force : Bool) : List Addr × List (Addr × Bool) :=
  let new := goset curr
  let old := goset prev
  let nlri :=
    new.foldl (fun m i => if i ∉ old ∨ force = true then aput m i true else m)
      (old.foldl (fun m i => if i ∈ new then m else aput m i false) [])
  (new, nlri)

theorem NLRI_def (curr prev : List Addr) (force : Bool) :
    NLRI curr prev force =
      (goset curr,
        (goset curr).foldl
          (fun m i => if i ∉ goset prev ∨ force = true then aput m i true else m)
          ((goset prev).foldl
            (fun m i => if i ∈ goset curr then m else aput m i false) [])) := rfl

/-- Model of `_update.nlri` (src/unnamed/part_005:142-144). -/
def RibUpdate.nlri (u : RibUpdate) (old : List Addr) (ipv6 force : Bool) :
    List Addr × List (Addr × Bool) :=
  NLRI (u.adjRIBOut ipv6) old force

/-- The transmit guard of `Session.try` (src/unnamed/part_006:904 and 866):
UPDATE messages are queued only when the computed NLRI map is non-empty. -/
def transmitsUpdate (nlri : List (Addr × Bool)) : Bool :=
  decide (0 < nlri.length)

theorem foldl_keep_of_mem (l new : List Addr) (h : ∀ i ∈ l, i ∈ new) :
    ∀ acc, l.foldl (fun m i => if i ∈ new then m else aput m i false) acc = acc := by
  induction l with
  | nil => intro acc; rfl
  | cons i t ih =>
    intro acc
    rw [List.foldl_cons, if_pos (h i (List.mem_cons_self i t))]
    exact ih (fun j hj => h j (List.mem_cons_of_mem _ hj)) acc

theorem foldl_keep_of_not (l old : List Addr) (h : ∀ i ∈ l, i ∈ old) :
    ∀ acc, l.foldl (fun m i => if i ∉ old ∨ false = true then aput m i true else m) acc
      = acc := by
  induction l with
  | nil => intro acc; rfl
  | cons i t ih =>
    intro acc
    rw [List.foldl_cons, if_neg ?hc]
    · exact ih (fun j hj => h j (List.mem_cons_of_mem _ hj)) acc
    case hc =>
      rintro (hni | hfalse)
      · exact hni (h i (List.mem_cons_self i t))
      · cases hfalse

/-- C2: if the filtered current set equals the previous adj-RIB-out and the
parameters are unchanged in LocalPref/MED/Communities (`Diff` is false, so
`force` is false), the NLRI diff is the empty map and the session queues no
UPDATE message. -/
theorem claim_C2 (u : RibUpdate) (prev : List Addr) (ipv6 : Bool) (q : Parameters)
    (h1 : ∀ a ∈ u.adjRIBOut ipv6, a ∈ prev) (h2 : ∀ a ∈ prev, a ∈ u.adjRIBOut ipv6)
    (hq : q.Diff u.Parameters = false) :
    (u.nlri prev ipv6 (q.Diff u.Parameters)).2 = [] ∧
    transmitsUpdate (u.nlri prev ipv6 (q.Diff u.Parameters)).2 = false := by
  rw [hq]
  have hmain : (u.nlri prev ipv6 false).2 = [] := by
    rw [RibUpdate.nlri, NLRI_def]
    have e1 : (goset prev).foldl
        (fun m i => if i ∈ goset (u.adjRIBOut ipv6) then m else aput m i false) [] = [] := by
      apply foldl_keep_of_mem
      intro i hi
      exact (mem_goset _ _).mpr (h2 i ((mem_goset _ _).mp hi))
    rw [e1]
    apply foldl_keep_of_not
    intro i hi
    exact (mem_goset _ _).mpr (h1 i ((mem_goset _ _).mp hi))
  exact ⟨hmain, by rw [hmain]; rfl⟩

/-- Parameters used by the C2/C3 witnesses. -/
def paramsW : Parameters :=
  { ASNumber := 65001, HoldTime := 30, SourceIP := [10, 0, 0, 1],
    NextHop4 := [10, 0, 0, 1], NextHop6 := List.replicate 16 0,
    Multiprotocol := false, LocalPref := 0, MED := 0, Communities := [],
    Accept := [], Reject := [] }

/-- Witness for C2 at a concrete input: RIB `{192.168.0.1}` unchanged and
identical parameters produce an empty NLRI map and no UPDATE. -/
theorem claim_C2_witness :
    (({ RIB := [Addr.v4 [192, 168, 0, 1]], Parameters := paramsW } : RibUpdate).nlri
        [Addr.v4 [192, 168, 0, 1]] false (paramsW.Diff paramsW)).2 = [] ∧
    transmitsUpdate
      (({ RIB := [Addr.v4 [192, 168, 0, 1]], Parameters := paramsW } : RibUpdate).nlri
        [Addr.v4 [192, 168, 0, 1]] false (paramsW.Diff paramsW)).2 = false :=
  claim_C2 { RIB := [Addr.v4 [192, 168, 0, 1]], Parameters := paramsW }
    [Addr.v4 [192, 168, 0, 1]] false paramsW (by decide) (by decide) (by decide)

theorem foldl_if_true_eq (l old : List Addr) :
    ∀ acc, l.foldl (fun m i => if i ∉ old ∨ true = true then aput m i true else m) acc =
      l.foldl (fun m i => aput m i true) acc := by
  induction l with
  | nil => intro acc; rfl
  | cons i t ih =>
    intro acc
    rw [List.foldl_cons, List.foldl_cons, if_pos (Or.inr rfl)]
    exact ih _

theorem aget_foldl_aput_not_mem (t : List Addr) (a : Addr) (hna : a ∉ t) :
    ∀ acc : List (Addr × Bool),
      aget (t.foldl (fun m i => aput m i true) acc) a = aget acc a := by
  induction t with
  | nil => intro acc; rfl
  | cons i t ih =>
    intro acc
    rw [List.foldl_cons, ih (fun h => hna (List.mem_cons_of_mem _ h))]
    rw [aget_aput, if_neg (fun h : a = i => hna (by rw [h]; exact List.mem_cons_self i t))]

theorem aget_foldl_aput_true (l : List Addr) (hnd : l.Nodup) (a : Addr) (ha : a ∈ l) :
    ∀ acc, aget (l.foldl (fun m i => aput m i true) acc) a = some true := by
  induction l with
  | nil => cases ha
  | cons i t ih =>
    intro acc
    rw [List.foldl_cons]
    rcases List.mem_cons.mp ha with rfl | hm
    · have hnt : a ∉ t := (List.nodup_cons.mp hnd).1
      rw [aget_foldl_aput_not_mem t a hnt]
      rw [aget_aput, if_pos rfl]
    · exact ih (List.nodup_cons.mp hnd).2 hm (aput acc i true)

/-- C3: when the parameters differ in LocalPref, MED or Communities (`Diff`
is true, so `force` is true), every address of the current filtered
adj-RIB-out is marked `true` (advertise) in the computed NLRI map. -/
theorem claim_C3 (u : RibUpdate) (prev : List Addr) (ipv6 : Bool) (q : Parameters)
    (hq : q.Diff u.Parameters = true) (a : Addr) (ha : a ∈ u.adjRIBOut ipv6) :
    aget (u.nlri prev ipv6 (q.Diff u.Parameters)).2 a = some true := by
  rw [hq, RibUpdate.nlri, NLRI_def]
  show aget ((goset (u.adjRIBOut ipv6)).foldl
      (fun m i => if i ∉ goset prev ∨ true = true then aput m i true else m) _) a = some true
  rw [foldl_if_true_eq]
  exact aget_foldl_aput_true _ (nodup_goset _) a ((mem_goset _ _).mpr ha) _

/-- Parameters with a different MED, for the C3 witness. -/
def paramsW2 : Parameters :=
  { ASNumber := 65001, HoldTime := 30, SourceIP := [10, 0, 0, 1],
    NextHop4 := [10, 0, 0, 1], NextHop6 := List.replicate 16 0,
    Multiprotocol := false, LocalPref := 0, MED := 50, Communities := [],
    Accept := [], Reject := [] }

/-- Witness for C3 at a concrete input: a MED change forces re-advertisement
of an already-advertised address. -/
theorem claim_C3_witness :
    aget (({ RIB := [Addr.v4 [192, 168, 0, 1]], Parameters := paramsW } : RibUpdate).nlri
        [Addr.v4 [192, 168, 0, 1]] false (paramsW2.Diff paramsW)).2
      (Addr.v4 [192, 168, 0, 1]) = some true :=
  claim_C3 { RIB := [Addr.v4 [192, 168, 0, 1]], Parameters := paramsW }
    [Addr.v4 [192, 168, 0, 1]] false paramsW2 (by decide)
    (Addr.v4 [192, 168, 0, 1]) (by decide)

/-! ## BGP constants (src/bgp/bgp4.go, src/unnamed/part_001) -/

def M_OPEN : Nat := 1

def M_UPDATE : Nat := 2

def M_NOTIFICATION : Nat := 3

def M_KEEPALIVE : Nat := 4

def IGP : Nat := 0

def CAPABILITIES_OPTIONAL_PARAMETER : Nat := 2

def BGP4_MP : Nat := 1

def ORIGIN : Nat := 1

def AS_PATH : Nat := 2

def NEXT_HOP : Nat := 3

def MULTI_EXIT_DISC : Nat := 4

def LOCAL_PREF : Nat := 5

def COMMUNITIES : Nat := 8

def MP_REACH_NLRI : Nat := 14

def MP_UNREACH_NLRI : Nat := 15

def AS_SEQUENCE : Nat := 2

def WTCR : Nat := 64

def ONCR : Nat := 128

def ONCE : Nat := 144

def OTCR : Nat := 192

def OTCE : Nat := 208

/-! ## UPDATE encoders (src/bgp/message.go:309-461 and src/unnamed/part_003:198-356) -/

/-- The `update` struct shared by the two encoder generations
(src/bgp/message.go:204-215, src/unnamed/part_003:126-137). -/
structure MsgUpdate where
  NextHop : Bytes
  NextHop6 : Bytes
  ASNumber : Nat
  LocalPref : Nat
  MED : Nat
  Communities : List Nat
  External : Bool
  RIB : List (Addr × Bool)
  Multiprotocol : Bool
  IPv6 : Bool
deriving DecidableEq

/-- The per-address loop of `update.message` (src/bgp/message.go:325-347,
src/unnamed/part_003:209-231): split the NLRI map into the IPv4/IPv6
advertise/withdraw byte strings of length-prefixed host prefixes. -/
def ribSplit : List (Addr × Bool) → Bytes × Bytes × Bytes × Bytes
  | [] => ([], [], [], [])
  | (k, v) :: t =>
    let r := ribSplit t
    ((if k.is4 && v then 32 :: k.as4 else []) ++ r.1,
     (if k.is4 && !v then 32 :: k.as4 else []) ++ r.2.1,
     (if k.is6 && v then 128 :: k.as16 else []) ++ r.2.2.1,
     (if k.is6 && !v then 128 :: k.as16 else []) ++ r.2.2.2)

/-- Path attributes of `update.message` in src/bgp/message.go (349-434), as
the list of attribute byte strings in emission order: ORIGIN, AS_PATH,
NEXT_HOP, LOCAL_PREF (iBGP only, defaulting 0 to 100), COMMUNITIES (first 60
entries), MED (when non-zero), MP_REACH_NLRI, MP_UNREACH_NLRI. -/
def msgPathAttrs (u : MsgUpdate) (advertise6 withdrawn6 : Bytes) : List Bytes :=
  let origin := [WTCR, ORIGIN, 1, IGP]
  let as_path := if u.External
    then [WTCR, AS_PATH, 4, AS_SEQUENCE, 1] ++ htons u.ASNumber
    else [WTCR, AS_PATH, 0]
  let next_hop := [WTCR, NEXT_HOP, 4] ++ u.NextHop
  let local_pref := if u.External then []
    else [[WTCR, LOCAL_PREF, 4] ++ htonl (if u.LocalPref = 0 then 100 else u.LocalPref)]
  let comms := ((u.Communities.take 60).map (fun v => htonl v)).flatten
  let communities := if 0 < u.Communities.length
    then [[OTCR, COMMUNITIES, comms.length % 256] ++ comms] else []
  let med := if 0 < u.MED then [[ONCR, MULTI_EXIT_DISC, 4] ++ htonl u.MED] else []
  let mp_reach := if 0 < advertise6.length then
      (let body := [0, 2, 1, u.NextHop6.length % 256] ++ u.NextHop6 ++ [0] ++ advertise6
       if 255 < body.length
       then [[ONCE, MP_REACH_NLRI] ++ htons body.length ++ body]
       else [[ONCR, MP_REACH_NLRI, body.length % 256] ++ body])
    else []
  let mp_unreach := if 0 < withdrawn6.length then
      (let body := [0, 2, 1] ++ withdrawn6
       if 255 < body.length
       then [[ONCE, MP_UNREACH_NLRI] ++ htons body.length ++ body]
       else [[ONCR, MP_UNREACH_NLRI, body.length % 256] ++ body])
    else []
  [origin, as_path, next_hop] ++ local_pref ++ communities ++ med ++ mp_reach ++ mp_unreach

/-- Model of `update.message` body assembly (src/bgp/message.go:448-460): withdrawn
length and routes, then (only when there is something to carry besides plain
withdrawals) the path attributes and IPv4 NLRI. -/
def msgUpdateBody (u : MsgUpdate) (rib : List (Addr × Bool)) : Bytes :=
  let s := ribSplit rib
  let advertise := s.1
  let withdrawn := s.2.1
  let advertise6 := s.2.2.1
  let withdrawn6 := s.2.2.2
  let pa := (msgPathAttrs u advertise6 withdrawn6).flatten
  htons withdrawn.length ++ withdrawn ++
    (if 0 < advertise.length ∨ 0 < advertise6.length ∨ 0 < withdrawn6.length
     then htons pa.length ++ pa ++ advertise
     else [0, 0])

/-- Path attributes of `update.message` in src/unnamed/part_003 (233-323):
same layout, but LOCAL_PREF is emitted only when `!External && LocalPref > 0`
(no default), and COMMUNITIES is untruncated with extended length when its
body exceeds 255 bytes. -/
def fragPathAttrs (u : MsgUpdate) (advertise6 withdrawn6 : Bytes) : List Bytes :=
  let origin := [WTCR, ORIGIN, 1, IGP]
  let as_path := if u.External
    then [WTCR, AS_PATH, 4, AS_SEQUENCE, 1] ++ htons u.ASNumber
    else [WTCR, AS_PATH, 0]
  let next_hop := [WTCR, NEXT_HOP, 4] ++ u.NextHop
  let local_pref := if u.External = false ∧ 0 < u.LocalPref
    then [[WTCR, LOCAL_PREF, 4] ++ htonl u.LocalPref] else []
  let comms := (u.Communities.map (fun v => htonl v)).flatten
  let communities := if 0 < u.Communities.length then
      (if 255 < comms.length
       then [[OTCE, COMMUNITIES] ++ htons comms.length ++ comms]
       else [[OTCR, COMMUNITIES, comms.length % 256] ++ comms])
    else []
  let med := if 0 < u.MED then [[ONCR, MULTI_EXIT_DISC, 4] ++ htonl u.MED] else []
  let mp_reach := if 0 < advertise6.length then
      (let body := [0, 2, 1, u.NextHop6.length % 256] ++ u.NextHop6 ++ [0] ++ advertise6
       if 255 < body.length
       then [[ONCE, MP_REACH_NLRI] ++ htons body.length ++ body]
       else [[ONCR, MP_REACH_NLRI, body.length % 256] ++ body])
    else []
  let mp_unreach := if 0 < withdrawn6.length then
      (let body := [0, 2, 1] ++ withdrawn6
       if 255 < body.length
       then [[ONCE, MP_UNREACH_NLRI] ++ htons body.length ++ body]
       else [[ONCR, MP_UNREACH_NLRI, body.length % 256] ++ body])
    else []
  [origin, as_path, next_hop] ++ local_pref ++ communities ++ med ++ mp_reach ++ mp_unreach

/-- Model of `update.message` body assembly in src/unnamed/part_003 (337-355). -/
def fragUpdateBody (u : MsgUpdate) (rib : List (Addr × Bool)) : Bytes :=
  let s := ribSplit rib
  let advertise := s.1
  let withdrawn := s.2.1
  let advertise6 := s.2.2.1
  let withdrawn6 := s.2.2.2
  let pa := (fragPathAttrs u advertise6 withdrawn6).flatten
  htons withdrawn.length ++ withdrawn ++
    (if 0 < advertise.length ∨ 0 < advertise6.length ∨ 0 < withdrawn6.length
     then htons pa.length ++ pa ++ advertise
     else [0, 0])

/-- First path attribute with the given type code (byte index 1). -/
def findAttr : List Bytes → Nat → Option Bytes
  | [], _ => none
  | a :: t, ty => if a.get? 1 = some ty then some a else findAttr t ty

theorem findAttr_append (l1 l2 : List Bytes) (ty : Nat) :
    findAttr (l1 ++ l2) ty =
      match findAttr l1 ty with
      | some a => some a
      | none => findAttr l2 ty := by
  induction l1 with
  | nil => rfl
  | cons a t ih =>
    by_cases h : a.get? 1 = some ty
    · rw [List.cons_append, findAttr, if_pos h, findAttr, if_pos h]
    · rw [List.cons_append, findAttr, if_neg h, findAttr, if_neg h, ih]

theorem findAttr_eq_none (l : List Bytes) (ty : Nat) (h : ∀ a ∈ l, ¬ a.get? 1 = some ty) :
    findAttr l ty = none := by
  induction l with
  | nil => rfl
  | cons a t ih =>
    rw [findAttr, if_neg (h a (List.mem_cons_self a t))]
    exact ih fun a ha => h a (List.mem_cons_of_mem _ ha)

theorem findAttr_if_cons (c : Prop) [Decidable c] (f g k : Nat) (a b : Bytes)
    (hk : ¬ k = 5) :
    findAttr (if c then [f :: k :: a] else [g :: k :: b]) 5 = none := by
  by_cases h : c <;> simp [h, findAttr, hk]

theorem findAttr_localpref_msg (u : MsgUpdate) (adv6 wd6 : Bytes) :
    findAttr (msgPathAttrs u adv6 wd6) LOCAL_PREF =
      if u.External then none
      else some ([WTCR, LOCAL_PREF, 4] ++
        htonl (if u.LocalPref = 0 then 100 else u.LocalPref)) := by
  by_cases h1 : u.External = true <;>
  by_cases h2 : 0 < u.Communities.length <;>
  by_cases h3 : 0 < u.MED <;>
  by_cases h4 : 0 < adv6.length <;>
  by_cases h5 : 0 < wd6.length <;>
  simp [msgPathAttrs, findAttr, h1, h2, h3, h4, h5,
    WTCR, ORIGIN, IGP, AS_PATH, AS_SEQUENCE, NEXT_HOP, LOCAL_PREF, COMMUNITIES,
    MULTI_EXIT_DISC, MP_REACH_NLRI, MP_UNREACH_NLRI, ONCR, ONCE, OTCR, OTCE] <;>
  simp [findAttr_append, findAttr_if_cons]

theorem findAttr_localpref_frag (u : MsgUpdate) (adv6 wd6 : Bytes) :
    findAttr (fragPathAttrs u adv6 wd6) LOCAL_PREF =
      if u.External = false ∧ 0 < u.LocalPref
      then some ([WTCR, LOCAL_PREF, 4] ++ htonl u.LocalPref)
      else none := by
  by_cases h1 : u.External = true <;>
  by_cases h0 : 0 < u.LocalPref <;>
  by_cases h2 : 0 < u.Communities.length <;>
  by_cases h3 : 0 < u.MED <;>
  by_cases h4 : 0 < adv6.length <;>
  by_cases h5 : 0 < wd6.length <;>
  simp [fragPathAttrs, findAttr, h1, h0, h2, h3, h4, h5,
    WTCR, ORIGIN, IGP, AS_PATH, AS_SEQUENCE, NEXT_HOP, LOCAL_PREF, COMMUNITIES,
    MULTI_EXIT_DISC, MP_REACH_NLRI, MP_UNREACH_NLRI, ONCR, ONCE, OTCR, OTCE] <;>
  simp [findAttr, findAttr_append, findAttr_if_cons]

/-- C5 (amended): on the encoder of src/bgp/message.go, LOCAL_PREF is
present on iBGP with the caller's value (0 defaulting to 100) and absent on
eBGP, as the claim states; the encoder of src/unnamed/part_003 emits
LOCAL_PREF on iBGP only when the caller-supplied value is non-zero (with
that value) and omits it when the value is 0 or the session is eBGP.  When
the advertise set is non-empty the path attributes are carried inside the
encoded UPDATE body. -/
theorem claim_C5 (u : MsgUpdate) (rib : List (Addr × Bool)) :
    (findAttr (msgPathAttrs u (ribSplit rib).2.2.1 (ribSplit rib).2.2.2) LOCAL_PREF =
      if u.External then none
      else some ([WTCR, LOCAL_PREF, 4] ++
        htonl (if u.LocalPref = 0 then 100 else u.LocalPref))) ∧
    (findAttr (fragPathAttrs u (ribSplit rib).2.2.1 (ribSplit rib).2.2.2) LOCAL_PREF =
      if u.External = false ∧ 0 < u.LocalPref
      then some ([WTCR, LOCAL_PREF, 4] ++ htonl u.LocalPref)
      else none) ∧
    (0 < (ribSplit rib).1.length →
      (∃ pre suf, msgUpdateBody u rib =
        pre ++ (msgPathAttrs u (ribSplit rib).2.2.1 (ribSplit rib).2.2.2).flatten ++ suf) ∧
      (∃ pre suf, fragUpdateBody u rib =
        pre ++ (fragPathAttrs u (ribSplit rib).2.2.1 (ribSplit rib).2.2.2).flatten ++ suf)) := by
  refine ⟨findAttr_localpref_msg u _ _, findAttr_localpref_frag u _ _, ?_⟩
  intro hadv
  constructor
  · refine ⟨htons (ribSplit rib).2.1.length ++ (ribSplit rib).2.1 ++
      htons ((msgPathAttrs u (ribSplit rib).2.2.1 (ribSplit rib).2.2.2).flatten).length,
      (ribSplit rib).1, ?_⟩
    simp only [msgUpdateBody]
    rw [if_pos (Or.inl hadv)]
    simp [List.append_assoc]
  · refine ⟨htons (ribSplit rib).2.1.length ++ (ribSplit rib).2.1 ++
      htons ((fragPathAttrs u (ribSplit rib).2.2.1 (ribSplit rib).2.2.2).flatten).length,
      (ribSplit rib).1, ?_⟩
    simp only [fragUpdateBody]
    rw [if_pos (Or.inl hadv)]
    simp [List.append_assoc]

/-- The update context of the C5 counterexample: iBGP (External=false),
caller-supplied LocalPref 0, one advertised /32. -/
def updC5 : MsgUpdate :=
  { NextHop := [10, 0, 0, 1], NextHop6 := List.replicate 16 0, ASNumber := 65001,
    LocalPref := 0, MED := 0, Communities := [], External := false,
    RIB := [(Addr.v4 [192, 168, 0, 1], true)], Multiprotocol := false, IPv6 := false }

/-- C5 counterexample: with the src/unnamed/part_003 encoder, an iBGP UPDATE
with caller-supplied LocalPref 0 and a non-empty advertise set carries no
LOCAL_PREF attribute at all, contradicting the claim that the attribute is
present with value 100. -/
theorem claim_C5_counterexample :
    updC5.External = false ∧ updC5.LocalPref = 0 ∧
    0 < (ribSplit updC5.RIB).1.length ∧
    findAttr (fragPathAttrs updC5 (ribSplit updC5.RIB).2.2.1 (ribSplit updC5.RIB).2.2.2)
      LOCAL_PREF = none := by decide

/-- Witness for C5 at a concrete input: the non-empty advertise hypothesis
discharged on a one-address RIB. -/
theorem claim_C5_witness :
    (0 < (ribSplit updC5.RIB).1.length) ∧
    (∃ pre suf, msgUpdateBody updC5 updC5.RIB =
      pre ++ (msgPathAttrs updC5 (ribSplit updC5.RIB).2.2.1
        (ribSplit updC5.RIB).2.2.2).flatten ++ suf) :=
  ⟨by decide, ((claim_C5 updC5 updC5.RIB).2.2 (by decide)).1⟩

/-! ## OPEN/NOTIFICATION codec and the connection reader
(src/unnamed/part_003:25-124, src/bgp/connection.go:115-254) -/

/-- Model of `notification` (src/unnamed/part_003:32-36). -/
structure NotificationMsg where
  code : Nat
  sub : Nat
  data : Bytes
deriving DecidableEq

/-- Model of `notification.message` (src/unnamed/part_003:38-40). -/
def NotificationMsg.message (n : NotificationMsg) : Bytes :=
  [n.code, n.sub] ++ n.data

/-- Model of `notification.parse` (src/unnamed/part_003:64-72): fails on fewer than
2 bytes, else reads code, subcode and the trailing data. -/
def notificationParse (d : Bytes) : Option NotificationMsg :=
  if d.length < 2 then none
  else some { code := (d.get? 0).getD 0, sub := (d.get? 1).getD 0, data := d.drop 2 }

/-- Model of `open` (src/unnamed/part_003:74-82). -/
structure OpenMsg where
  asNumber : Nat
  holdTime : Nat
  routerID : Bytes
  multiprotocol : Bool
  version : Nat
  op : Bytes
deriving DecidableEq

/-- Model of `open.parse` (src/unnamed/part_003:84-94): fails on fewer than 10 bytes;
reads version, AS number, hold time and router ID, stores the bytes after
the optional-parameters length byte in `op`, and never sets
`multiprotocol` — the Go zero value `false` of the record the reader
allocates (src/bgp/connection.go:233-236) survives. -/
def openParse (d : Bytes) : Option OpenMsg :=
  if d.length < 10 then none
  else some
    { version := (d.get? 0).getD 0
      asNumber := (((d.get? 1).getD 0) <<< 8) ||| ((d.get? 2).getD 0)
      holdTime := (((d.get? 3).getD 0) <<< 8) ||| ((d.get? 4).getD 0)
      routerID := (d.drop 5).take 4
      multiprotocol := false
      op := d.drop 10 }

/-- Model of `open.message` (src/unnamed/part_003:96-124): version 4, AS number, hold
time, router ID, then the optional-parameters length byte followed by the
two multiprotocol capability parameters when `multiprotocol` is set. -/
def OpenMsg.message (o : OpenMsg) : Bytes :=
  let as := htons o.asNumber
  let ht := htons o.holdTime
  let mp_ipv4 := [BGP4_MP, 4, 0, 1, 0, 1]
  let mp_ipv6 := [BGP4_MP, 4, 0, 2, 0, 1]
  let param_ipv4 := [CAPABILITIES_OPTIONAL_PARAMETER, mp_ipv4.length] ++ mp_ipv4
  let param_ipv6 := [CAPABILITIES_OPTIONAL_PARAMETER, mp_ipv6.length] ++ mp_ipv6
  let params := if o.multiprotocol then param_ipv6 ++ param_ipv4 else []
  [4] ++ as ++ ht ++ o.routerID ++ (params.length % 256 :: params)

/-- The typed messages the connection reader produces
(src/unnamed/part_003:25-62). -/
inductive Message where
  | openMsg (o : OpenMsg)
  | notification (n : NotificationMsg)
  | keepalive
  | other (mtype : Nat) (body : Bytes)
deriving DecidableEq

/-- Model of `Body()` of the reader's typed messages (src/unnamed/part_003:42-62):
OPEN and NOTIFICATION re-encode themselves, a KEEPALIVE has no body, and
other message types keep their raw bytes. -/
def Message.body : Message → Bytes
  | .openMsg o => o.message
  | .notification n => n.message
  | .keepalive => []
  | .other _ b => b

/-- The reader's decode switch (src/bgp/connection.go:230-243): OPEN and
NOTIFICATION bodies are parsed into typed records (the Go code ignores a
failed parse, leaving the zero-value record); every other type, including
UPDATE and KEEPALIVE, stays opaque. -/
def readerDecode (mtype : Nat) (body : Bytes) : Message :=
  if mtype = M_OPEN then
    .openMsg ((openParse body).getD
      { version := 0, asNumber := 0, holdTime := 0, routerID := [0, 0, 0, 0],
        multiprotocol := false, op := [] })
  else if mtype = M_NOTIFICATION then
    .notification ((notificationParse body).getD { code := 0, sub := 0, data := [] })
  else .other mtype body

/-- Model of `addHeader` inside `connection.queue` (src/bgp/connection.go:115-131):
sixteen 0xFF marker bytes, the big-endian total length and the type byte. -/
def addHeader (t : Nat) (d : Bytes) : Bytes :=
  List.replicate 16 255 ++ htons (19 + d.length) ++ [t] ++ d

theorem lor_mul256 (a b : Nat) (hb : b < 256) : (a <<< 8) ||| b = a * 256 + b := by
  have hb' : b < 2 ^ 8 := hb
  have h := Nat.mul_add_lt_is_or hb' a
  rw [Nat.shiftLeft_eq]
  calc a * 2 ^ 8 ||| b = 2 ^ 8 * a ||| b := by rw [Nat.mul_comm]
    _ = 2 ^ 8 * a + b := h.symm
    _ = a * 256 + b := by rw [Nat.mul_comm]

theorem be16_htons (x : Nat) (hx : x < 65536) :
    ((x / 256 % 256) <<< 8) ||| (x % 256) = x := by
  rw [lor_mul256 _ _ (Nat.mod_lt _ (by norm_num))]
  have h : x / 256 % 256 = x / 256 := Nat.mod_eq_of_lt (by omega)
  rw [h]
  omega

theorem notificationParse_message (n : NotificationMsg) :
    notificationParse (n.message) = some n := by
  simp [NotificationMsg.message, notificationParse]

theorem openParse_message (asn ht : Nat) (mp : Bool) (ver : Nat) (op : Bytes)
    (r0 r1 r2 r3 : Nat) (ha : asn < 65536) (hh : ht < 65536) :
    openParse (OpenMsg.message
      { version := ver, asNumber := asn, holdTime := ht,
        routerID := [r0, r1, r2, r3], multiprotocol := mp, op := op }) = some
      { version := 4, asNumber := asn, holdTime := ht, routerID := [r0, r1, r2, r3],
        multiprotocol := false,
        op := if mp then [2, 6, 1, 4, 0, 2, 0, 1, 2, 6, 1, 4, 0, 1, 0, 1] else [] } := by
  cases mp <;>
    simp [OpenMsg.message, openParse, CAPABILITIES_OPTIONAL_PARAMETER, BGP4_MP, htons,
      be16_htons asn ha, be16_htons ht hh]

/-- C6 (amended): PDU bodies this speaker emits round-trip through the
reader's parsers except multiprotocol OPENs: NOTIFICATION bodies parse back
to the same record and re-encode byte-for-byte; UPDATE and KEEPALIVE bodies
are left opaque by the reader, so re-encoding is the identity; an OPEN with
Multiprotocol=false round-trips byte-for-byte; but `open.parse` never sets
`multiprotocol`, so an emitted Multiprotocol OPEN (whose framed wire length
is 45 = 29 + 16 bytes) re-encodes to the 10-byte capability-free body
instead of the original. -/
theorem claim_C6 :
    (∀ n : NotificationMsg, notificationParse (NotificationMsg.message n) = some n ∧
      (notificationParse (NotificationMsg.message n)).map NotificationMsg.message =
        some (NotificationMsg.message n)) ∧
    (∀ (mt : Nat) (b : Bytes), mt = M_UPDATE ∨ mt = M_KEEPALIVE →
      (readerDecode mt b).body = b) ∧
    (∀ (asn ht ver : Nat) (op : Bytes) (r0 r1 r2 r3 : Nat),
      asn < 65536 → ht < 65536 →
      (openParse (OpenMsg.message
        { version := ver, asNumber := asn, holdTime := ht, routerID := [r0, r1, r2, r3],
          multiprotocol := false, op := op })).map OpenMsg.message =
        some (OpenMsg.message
          { version := ver, asNumber := asn, holdTime := ht, routerID := [r0, r1, r2, r3],
            multiprotocol := false, op := op }) ∧
      (openParse (OpenMsg.message
        { version := ver, asNumber := asn, holdTime := ht, routerID := [r0, r1, r2, r3],
          multiprotocol := true, op := op })).map OpenMsg.message =
        some (OpenMsg.message
          { version := ver, asNumber := asn, holdTime := ht, routerID := [r0, r1, r2, r3],
            multiprotocol := false, op := op }) ∧
      (OpenMsg.message
        { version := ver, asNumber := asn, holdTime := ht, routerID := [r0, r1, r2, r3],
          multiprotocol := true, op := op }).length = 26 ∧
      (addHeader M_OPEN (OpenMsg.message
        { version := ver, asNumber := asn, holdTime := ht, routerID := [r0, r1, r2, r3],
          multiprotocol := true, op := op })).length = 45 ∧
      (openParse (OpenMsg.message
        { version := ver, asNumber := asn, holdTime := ht, routerID := [r0, r1, r2, r3],
          multiprotocol := true, op := op })).map OpenMsg.message ≠
        some (OpenMsg.message
          { version := ver, asNumber := asn, holdTime := ht, routerID := [r0, r1, r2, r3],
            multiprotocol := true, op := op })) := by
  refine ⟨?_, ?_, ?_⟩
  · intro n
    exact ⟨notificationParse_message n, by rw [notificationParse_message n]; rfl⟩
  · rintro mt b (rfl | rfl) <;> rfl
  · intro asn ht ver op r0 r1 r2 r3 ha hh
    refine ⟨?_, ?_, ?_, ?_, ?_⟩
    · rw [openParse_message asn ht false ver op r0 r1 r2 r3 ha hh]
      rfl
    · rw [openParse_message asn ht true ver op r0 r1 r2 r3 ha hh]
      rfl
    · simp [OpenMsg.message, htons, CAPABILITIES_OPTIONAL_PARAMETER, BGP4_MP]
    · simp [addHeader, OpenMsg.message, htons, CAPABILITIES_OPTIONAL_PARAMETER, BGP4_MP]
    · rw [openParse_message asn ht true ver op r0 r1 r2 r3 ha hh]
      intro h
      have hlen := congrArg (fun x => Option.map List.length x) h
      simp [OpenMsg.message, htons, CAPABILITIES_OPTIONAL_PARAMETER, BGP4_MP] at hlen

/-- The OPEN of C6's counterexample: ASN 65001, hold time 30, router ID
10.0.0.1, Multiprotocol set — as the session emits it. -/
def openC6 : OpenMsg :=
  { version := 0, asNumber := 65001, holdTime := 30, routerID := [10, 0, 0, 1],
    multiprotocol := true, op := [] }

/-- C6 counterexample: parsing the emitted multiprotocol OPEN body and
re-encoding the parsed record drops the capabilities, so the bytes differ
from the original body; round-tripping fails for this emitted PDU (whose
framed length is indeed 45 bytes). -/
theorem claim_C6_counterexample :
    (openParse (OpenMsg.message openC6)).map OpenMsg.message ≠
      some (OpenMsg.message openC6) ∧
    (addHeader M_OPEN (OpenMsg.message openC6)).length = 45 := by decide

/-- Witness for C6 at a concrete input: the Multiprotocol=false OPEN
round-trips byte-for-byte. -/
theorem claim_C6_witness :
    (65001 < 65536 ∧ 30 < 65536) ∧
    (openParse (OpenMsg.message
      { version := 0, asNumber := 65001, holdTime := 30, routerID := [10, 0, 0, 1],
        multiprotocol := false, op := [] })).map OpenMsg.message =
      some (OpenMsg.message
        { version := 0, asNumber := 65001, holdTime := 30, routerID := [10, 0, 0, 1],
          multiprotocol := false, op := [] }) :=
  ⟨⟨by decide, by decide⟩,
    (claim_C6.2.2 65001 30 0 [] 10 0 0 1 (by decide) (by decide)).1⟩

/-! ## UPDATE fragmentation (src/bgp/message.go:234-282) -/

def CEASE : Nat := 6

def OUT_OF_RESOURCES : Nat := 8

/-- Model of `update.messages` (src/bgp/message.go:234-282): encode the whole NLRI
map; if the body reaches 4000 bytes, split the map in half and encode each
half recursively; a single-prefix map that still cannot fit (or any failing
half) yields no messages at all. -/
def updateMessages (u : MsgUpdate) (m : List (Addr × Bool)) : List Bytes :=
  if h0 : m.length < 1 then [] else
  if (msgUpdateBody u m).length < 4000 then [msgUpdateBody u m] else
  if h1 : m.length = 1 then [] else
  let r1 := updateMessages u (m.take (m.length / 2))
  if r1.length < 1 then [] else
  let r2 := updateMessages u (m.drop (m.length / 2))
  if r2.length < 1 then [] else r1 ++ r2
termination_by m.length
decreasing_by
  · simp only [List.length_take]
    omega
  · simp only [List.length_drop]
    omega

/-- The UPDATE emission step of `Session.try` (src/unnamed/part_006:866-874
and 904-910): with a non-empty NLRI map, a failed fragmentation (no
messages) makes the session send NOTIFICATION CEASE/OUT_OF_RESOURCES,
otherwise the messages are queued. -/
def sessionEmit (u : MsgUpdate) (nlri : List (Addr × Bool)) :
    Except (Nat × Nat) (List Bytes) :=
  if 0 < nlri.length then
    (if (updateMessages u nlri).length < 1 then .error (CEASE, OUT_OF_RESOURCES)
     else .ok (updateMessages u nlri))
  else .ok []

theorem claim_C4_aux (u : MsgUpdate) :
    ∀ (n : Nat) (m : List (Addr × Bool)), m.length ≤ n → m ≠ [] →
    (updateMessages u m = [] ∧ ∃ kv ∈ m, 4000 ≤ (msgUpdateBody u [kv]).length) ∨
    (∃ chunks : List (List (Addr × Bool)),
      updateMessages u m = chunks.map (msgUpdateBody u) ∧
      chunks.flatten = m ∧ (∀ c ∈ chunks, c ≠ []) ∧
      (∀ b ∈ updateMessages u m, b.length < 4096) ∧ updateMessages u m ≠ []) := by
  intro n
  induction n with
  | zero =>
    intro m hlen hne
    cases m with
    | nil => exact absurd rfl hne
    | cons a t => simp at hlen
  | succ n ih =>
    intro m hlen hne
    have h0 : ¬ m.length < 1 := by
      cases m with
      | nil => exact absurd rfl hne
      | cons a t => simp
    by_cases hsmall : (msgUpdateBody u m).length < 4000
    · right
      have hupd : updateMessages u m = [msgUpdateBody u m] := by
        rw [updateMessages, dif_neg h0, if_pos hsmall]
      refine ⟨[m], by simpa using hupd, by simp, by simpa using hne, ?_, ?_⟩
      · intro b hb
        rw [hupd] at hb
        rcases List.mem_singleton.mp hb with rfl
        omega
      · rw [hupd]; simp
    · by_cases h1 : m.length = 1
      · left
        have hupd : updateMessages u m = [] := by
          rw [updateMessages, dif_neg h0, if_neg hsmall, dif_pos h1]
        refine ⟨hupd, ?_⟩
        obtain ⟨kv, hkv⟩ : ∃ kv, m = [kv] := by
          cases m with
          | nil => exact absurd rfl hne
          | cons a t =>
            cases t with
            | nil => exact ⟨a, rfl⟩
            | cons b t2 => simp at h1
        refine ⟨kv, by rw [hkv]; exact List.mem_singleton.mpr rfl, ?_⟩
        rw [← hkv]
        omega
      · -- recursive split
        have hge2 : 2 ≤ m.length := by omega
        have hl1 : (m.take (m.length / 2)).length ≤ n := by
          simp only [List.length_take]
          omega
        have hl2 : (m.drop (m.length / 2)).length ≤ n := by
          simp only [List.length_drop]
          omega
        have hne1 : m.take (m.length / 2) ≠ [] := by
          intro h
          have := congrArg List.length h
          simp only [List.length_take, List.length_nil] at this
          omega
        have hne2 : m.drop (m.length / 2) ≠ [] := by
          intro h
          have := congrArg List.length h
          simp only [List.length_drop, List.length_nil] at this
          omega
        by_cases hr1 : updateMessages u (m.take (m.length / 2)) = []
        · left
          have hupd : updateMessages u m = [] := by
            rw [updateMessages, dif_neg h0, if_neg hsmall, dif_neg h1]
            rw [if_pos (by rw [hr1]; simp)]
          refine ⟨hupd, ?_⟩
          rcases ih (m.take (m.length / 2)) hl1 hne1 with ⟨_, kv, hkvm, hkvb⟩ | ⟨_, _, _, _, _, hne'⟩
          · exact ⟨kv, List.take_subset _ _ hkvm, hkvb⟩
          · exact absurd hr1 hne'
        · by_cases hr2 : updateMessages u (m.drop (m.length / 2)) = []
          · left
            have hupd : updateMessages u m = [] := by
              rw [updateMessages, dif_neg h0, if_neg hsmall, dif_neg h1]
              rw [if_neg (by simpa [List.length_eq_zero] using hr1)]
              rw [if_pos (by rw [hr2]; simp)]
            refine ⟨hupd, ?_⟩
            rcases ih (m.drop (m.length / 2)) hl2 hne2 with ⟨_, kv, hkvm, hkvb⟩ | ⟨_, _, _, _, _, hne'⟩
            · exact ⟨kv, List.drop_subset _ _ hkvm, hkvb⟩
            · exact absurd hr2 hne'
          · right
            have hupd : updateMessages u m =
                updateMessages u (m.take (m.length / 2)) ++
                updateMessages u (m.drop (m.length / 2)) := by
              rw [updateMessages, dif_neg h0, if_neg hsmall, dif_neg h1]
              rw [if_neg (by simpa [List.length_eq_zero] using hr1)]
              rw [if_neg (by simpa [List.length_eq_zero] using hr2)]
            rcases ih (m.take (m.length / 2)) hl1 hne1 with ⟨hfail, _⟩ | ⟨c1, he1, hf1, hn1, hb1, _⟩
            · exact absurd hfail hr1
            rcases ih (m.drop (m.length / 2)) hl2 hne2 with ⟨hfail, _⟩ | ⟨c2, he2, hf2, hn2, hb2, _⟩
            · exact absurd hfail hr2
            refine ⟨c1 ++ c2, ?_, ?_, ?_, ?_, ?_⟩
            · rw [hupd, he1, he2, List.map_append]
            · rw [List.flatten_append, hf1, hf2, List.take_append_drop]
            · intro c hc
              rcases List.mem_append.mp hc with h | h
              · exact hn1 c h
              · exact hn2 c h
            · intro b hb
              rw [hupd] at hb
              rcases List.mem_append.mp hb with h | h
              · exact hb1 b h
              · exact hb2 b h
            · rw [hupd]
              intro h
              rcases List.append_eq_nil.mp h with ⟨ha, _⟩
              exact hr1 ha

/-- C4: for every non-empty NLRI map, the fragmentation routine either fails
(returning no messages, upon which the session sends
CEASE/OUT_OF_RESOURCES) because some single entry of the map already
encodes to an UPDATE body of at least 4000 bytes, or it returns bodies,
each shorter than 4096 bytes, that are exactly the single-UPDATE encodings
of a partition of the original map into non-empty consecutive chunks. -/
theorem claim_C4 (u : MsgUpdate) (m : List (Addr × Bool)) (hm : m ≠ []) :
    (updateMessages u m = [] ∧
      (∃ kv ∈ m, 4000 ≤ (msgUpdateBody u [kv]).length) ∧
      sessionEmit u m = .error (CEASE, OUT_OF_RESOURCES)) ∨
    (∃ chunks : List (List (Addr × Bool)),
      updateMessages u m = chunks.map (msgUpdateBody u) ∧
      chunks.flatten = m ∧
      (∀ c ∈ chunks, c ≠ []) ∧
      (∀ b ∈ updateMessages u m, b.length < 4096) ∧
      sessionEmit u m = .ok (updateMessages u m) ∧
      updateMessages u m ≠ []) := by
  have hpos : 0 < m.length := by
    cases m with
    | nil => exact absurd rfl hm
    | cons a t => simp
  rcases claim_C4_aux u m.length m le_rfl hm with ⟨he, hw⟩ | ⟨chunks, h1, h2, h3, h4, h5⟩
  · left
    refine ⟨he, hw, ?_⟩
    rw [sessionEmit, if_pos hpos, if_pos (by rw [he]; simp)]
  · right
    refine ⟨chunks, h1, h2, h3, h4, ?_, h5⟩
    rw [sessionEmit, if_pos hpos, if_neg (by simpa [List.length_eq_zero] using h5)]

/-- Witness for C4 at a concrete input: a single-address advertise map fits
in one message. -/
theorem claim_C4_witness :
    ([((Addr.v4 [192, 168, 0, 1] : Addr), true)] ≠ ([] : List (Addr × Bool))) ∧
    ((updateMessages updC5 [(Addr.v4 [192, 168, 0, 1], true)] = [] ∧
      (∃ kv ∈ [((Addr.v4 [192, 168, 0, 1] : Addr), true)],
        4000 ≤ (msgUpdateBody updC5 [kv]).length) ∧
      sessionEmit updC5 [(Addr.v4 [192, 168, 0, 1], true)] =
        .error (CEASE, OUT_OF_RESOURCES)) ∨
    (∃ chunks : List (List (Addr × Bool)),
      updateMessages updC5 [(Addr.v4 [192, 168, 0, 1], true)] =
        chunks.map (msgUpdateBody updC5) ∧
      chunks.flatten = [(Addr.v4 [192, 168, 0, 1], true)] ∧
      (∀ c ∈ chunks, c ≠ []) ∧
      (∀ b ∈ updateMessages updC5 [(Addr.v4 [192, 168, 0, 1], true)], b.length < 4096) ∧
      sessionEmit updC5 [(Addr.v4 [192, 168, 0, 1], true)] =
        .ok (updateMessages updC5 [(Addr.v4 [192, 168, 0, 1], true)]) ∧
      updateMessages updC5 [(Addr.v4 [192, 168, 0, 1], true)] ≠ [])) :=
  ⟨by decide, claim_C4 updC5 [(Addr.v4 [192, 168, 0, 1], true)] (by decide)⟩
